import Mathlib

/-!
Verification of the location-matching engine and the concurrent scoring
dispatcher of the Lever-Analyzer repository.

Python strings are modelled as lists of characters (`Str`), so that every
operation is structurally recursive and kernel-evaluable.  The reference
data (region mappings) is transcribed verbatim from
`src/location_utils.py`.  The external lookup libraries (`us`,
`country_converter`, `phonenumbers`) and the regex based resume/phone
extractors are modelled as explicit lookup tables and oracle functions:
the code under verification treats them as black boxes, and the theorems
quantify over them wherever possible.
-/

/-- Python `str` modelled as a list of characters. -/
abbrev Str := List Char

/-- ASCII model of Python `str.lower` on one character (all reference data
and all inputs exercised here are ASCII). -/
def lowerChar (c : Char) : Char :=
  match c with
  | 'A' => 'a' | 'B' => 'b' | 'C' => 'c' | 'D' => 'd' | 'E' => 'e' | 'F' => 'f'
  | 'G' => 'g' | 'H' => 'h' | 'I' => 'i' | 'J' => 'j' | 'K' => 'k' | 'L' => 'l'
  | 'M' => 'm' | 'N' => 'n' | 'O' => 'o' | 'P' => 'p' | 'Q' => 'q' | 'R' => 'r'
  | 'S' => 's' | 'T' => 't' | 'U' => 'u' | 'V' => 'v' | 'W' => 'w' | 'X' => 'x'
  | 'Y' => 'y' | 'Z' => 'z' | _ => c

/-- Python `str.lower`. -/
def toLowerStr (s : Str) : Str := s.map lowerChar

/-- Python `str.strip`: drop whitespace from both ends. -/
def trimStr (s : Str) : Str :=
  ((s.dropWhile Char.isWhitespace).reverse.dropWhile Char.isWhitespace).reverse

/-- Python `a in b` on strings: `a` occurs as a contiguous substring of `b`. -/
def isSubstr (a : Str) : Str → Bool
  | [] => a.isEmpty
  | c :: bs => a.isPrefixOf (c :: bs) || isSubstr a bs

/-- Python `re.split` on a class of single-character delimiters, keeping
empty fields (they are filtered away by the callers). -/
def splitPStr (p : Char → Bool) : Str → List Str
  | [] => [[]]
  | c :: cs =>
    if p c then [] :: splitPStr p cs
    else
      match splitPStr p cs with
      | [] => [[c]]
      | h :: t => (c :: h) :: t

/-- Python truthiness of a string: nonempty. -/
def truthyS (s : Str) : Bool := !s.isEmpty

/-- Python truthiness of an optional string field (`None` and `""` are falsy). -/
def truthyO : Option Str → Bool
  | some s => !s.isEmpty
  | none => false

/-- Unwrap an optional string (callers only do this under a truthiness guard). -/
def optStr (o : Option Str) : Str := o.getD []

/-- The `REGION_MAPPINGS` dict of `src/location_utils.py`, in insertion
order (Python dicts iterate in insertion order). -/
def REGION_MAPPINGS : List (String × List String) := [
  ("bay area",
    ["san francisco", "daly city", "south san francisco", "san bruno", "millbrae",
     "burlingame", "san mateo", "foster city", "belmont", "san carlos", "redwood city",
     "menlo park", "palo alto", "oakland", "berkeley", "alameda", "emeryville", "albany",
     "el cerrito", "richmond", "san pablo", "pinole", "hercules", "martinez", "concord",
     "walnut creek", "pleasant hill", "clayton", "danville", "san ramon", "dublin",
     "pleasanton", "livermore", "fremont", "newark", "union city", "hayward", "san leandro",
     "castro valley", "san lorenzo", "san jose", "santa clara", "sunnyvale", "mountain view",
     "los altos", "cupertino", "saratoga", "campbell", "los gatos", "monte sereno", "milpitas",
     "santa teresa", "willow glen", "san rafael", "novato", "petaluma", "santa rosa",
     "rohnert park", "cotati", "sebastopol", "healdsburg", "windsor", "cloverdale", "vallejo",
     "benicia", "fairfield", "vacaville", "suisun city", "napa", "american canyon", "st helena",
     "calistoga", "yountville", "sausalito", "mill valley", "tiburon", "corte madera",
     "larkspur", "san anselmo", "fairfax"]),
  ("silicon valley",
    ["san jose", "palo alto", "mountain view", "sunnyvale", "santa clara", "cupertino",
     "milpitas", "los altos", "redwood city", "menlo park", "campbell", "saratoga",
     "los gatos"]),
  ("greater los angeles",
    ["los angeles", "santa monica", "pasadena", "glendale", "burbank", "long beach", "anaheim",
     "irvine", "santa ana", "torrance", "inglewood", "el segundo", "culver city",
     "beverly hills"]),
  ("orange county",
    ["santa ana", "anaheim", "irvine", "huntington beach", "garden grove", "orange",
     "fullerton", "costa mesa", "mission viejo", "newport beach", "tustin", "lake forest",
     "yorba linda", "laguna niguel"]),
  ("greater seattle",
    ["seattle", "bellevue", "redmond", "kirkland", "sammamish", "issaquah", "mercer island",
     "newcastle", "woodinville", "bothell", "kenmore", "lake forest park", "shoreline",
     "mountlake terrace", "brier", "renton", "kent", "auburn", "federal way", "tukwila",
     "seatac", "burien", "des moines", "covington", "maple valley", "enumclaw", "everett",
     "lynnwood", "edmonds", "mukilteo", "mill creek", "marysville", "lake stevens",
     "snohomish", "monroe", "arlington", "tacoma", "lakewood", "puyallup", "university place",
     "bonney lake", "sumner", "edgewood", "fife", "gig harbor", "dupont", "steilacoom",
     "bremerton", "silverdale", "poulsbo", "port orchard", "bainbridge island"]),
  ("seattle metro",
    ["seattle", "bellevue", "redmond", "kirkland", "sammamish", "issaquah", "mercer island",
     "newcastle", "woodinville", "bothell", "kenmore", "lake forest park", "shoreline",
     "mountlake terrace", "brier", "renton", "kent", "auburn", "federal way", "tukwila",
     "seatac", "burien", "des moines", "covington", "maple valley", "enumclaw", "everett",
     "lynnwood", "edmonds", "mukilteo", "mill creek", "marysville", "lake stevens",
     "snohomish", "monroe", "arlington", "tacoma", "lakewood", "puyallup", "university place",
     "bonney lake", "sumner", "edgewood", "fife", "gig harbor", "dupont", "steilacoom",
     "bremerton", "silverdale", "poulsbo", "port orchard", "bainbridge island"]),
  ("greater boston",
    ["boston", "cambridge", "somerville", "brookline", "newton", "quincy", "waltham",
     "framingham", "malden", "medford", "lynn", "arlington"]),
  ("dmv",
    ["washington", "arlington", "alexandria", "bethesda", "silver spring", "rockville",
     "falls church", "tysons", "mclean", "reston", "fairfax"]),
  ("nyc metro",
    ["new york", "brooklyn", "manhattan", "queens", "bronx", "staten island", "newark",
     "jersey city", "hoboken", "weehawken", "edgewater", "fort lee", "hackensack", "paterson",
     "elizabeth", "bayonne", "yonkers", "white plains", "new rochelle", "mount vernon"]),
  ("new york metro",
    ["new york", "brooklyn", "manhattan", "queens", "bronx", "staten island", "newark",
     "jersey city", "hoboken", "weehawken", "edgewater", "fort lee", "hackensack", "paterson",
     "elizabeth", "bayonne", "yonkers", "white plains", "new rochelle", "mount vernon"]),
  ("tri-state",
    ["new york", "newark", "jersey city", "yonkers", "bridgeport", "stamford", "white plains",
     "hoboken", "paterson", "new haven", "norwalk", "danbury"]),
  ("chicago metro",
    ["chicago", "naperville", "aurora", "joliet", "rockford", "elgin", "cicero",
     "arlington heights", "evanston", "schaumburg", "bolingbrook"]),
  ("dallas metro",
    ["dallas", "fort worth", "arlington", "plano", "irving", "garland", "frisco", "mckinney",
     "richardson", "carrollton", "denton"]),
  ("houston metro",
    ["houston", "sugar land", "the woodlands", "pearland", "league city", "baytown",
     "missouri city", "texas city", "pasadena", "conroe"]),
  ("atlanta metro",
    ["atlanta", "sandy springs", "roswell", "marietta", "johns creek", "alpharetta", "smyrna",
     "dunwoody", "brookhaven", "peachtree city"]),
  ("phoenix metro",
    ["phoenix", "mesa", "chandler", "scottsdale", "glendale", "gilbert", "tempe", "peoria",
     "surprise", "avondale", "goodyear"]),
  ("philadelphia metro",
    ["philadelphia", "camden", "wilmington", "cherry hill", "trenton", "bensalem",
     "gloucester", "king of prussia", "norristown"]),
  ("miami metro",
    ["miami", "fort lauderdale", "west palm beach", "hialeah", "boca raton", "miami beach",
     "coral springs", "pembroke pines", "hollywood", "doral"]),
  ("denver metro",
    ["denver", "aurora", "lakewood", "centennial", "boulder", "arvada", "westminster",
     "thornton", "broomfield", "longmont", "castle rock"]),
  ("portland metro",
    ["portland", "vancouver", "gresham", "hillsboro", "beaverton", "bend", "salem", "eugene",
     "tigard", "lake oswego"]),
  ("austin metro",
    ["austin", "round rock", "georgetown", "pflugerville", "cedar park", "san marcos", "kyle",
     "buda", "leander", "hutto"])]

/-- The `expand_region` function of `src/location_utils.py`: lower-case and
strip the input, return the member-city list of the first region whose name
occurs as a substring, else the singleton of the original input. -/
def expand_region (location : Str) : List Str :=
  match REGION_MAPPINGS.find? (fun rc => isSubstr rc.1.data (trimStr (toLowerStr location))) with
  | some rc => rc.2.map String.data
  | none => [location]

/-- The result dict of `normalize_location` (the GeoDescriptor of the spec). -/
structure NormLoc where
  city : Option Str
  state : Option Str
  state_abbr : Option Str
  country : Option Str
  country_code : Option Str
  original : Str
deriving DecidableEq

/-- The external lookup tables used by `normalize_location`:
`us.states.lookup` (returning state name and abbreviation) and
`coco.CountryConverter().convert` (returning short name and ISO3 code).
`none` covers both a lookup miss and a raised exception. -/
structure GeoTables where
  stateLookup : Str → Option (Str × Str)
  countryLookup : Str → Option (Str × Str)

/-- Finite model of the `us` library state table (name and abbreviation,
keyed case-insensitively by either), restricted to the states exercised by
the theorems below. -/
def US_STATE_TABLE : List (String × String × String) := [
  ("california", "California", "CA"), ("ca", "California", "CA"),
  ("new york", "New York", "NY"), ("ny", "New York", "NY"),
  ("texas", "Texas", "TX"), ("tx", "Texas", "TX"),
  ("washington", "Washington", "WA"), ("wa", "Washington", "WA"),
  ("new jersey", "New Jersey", "NJ"), ("nj", "New Jersey", "NJ"),
  ("nevada", "Nevada", "NV"), ("nv", "Nevada", "NV"),
  ("oregon", "Oregon", "OR"), ("or", "Oregon", "OR"),
  ("florida", "Florida", "FL"), ("fl", "Florida", "FL"),
  ("illinois", "Illinois", "IL"), ("il", "Illinois", "IL"),
  ("massachusetts", "Massachusetts", "MA"), ("ma", "Massachusetts", "MA")]

/-- Finite model of the `country_converter` table (short name and ISO3
code, keyed case-insensitively), restricted to the countries exercised by
the theorems below.  Any string outside the table converts to `not found`,
modelled as `none`. -/
def COUNTRY_TABLE : List (String × String × String) := [
  ("usa", "United States", "USA"), ("us", "United States", "USA"),
  ("canada", "Canada", "CAN"), ("france", "France", "FRA"),
  ("germany", "Germany", "DEU"), ("uk", "United Kingdom", "GBR"),
  ("australia", "Australia", "AUS"), ("japan", "Japan", "JPN"),
  ("india", "India", "IND"), ("mexico", "Mexico", "MEX")]

/-- State lookup of the real environment, keyed by the lower-cased token. -/
def realStateLookup (part : Str) : Option (Str × Str) :=
  (US_STATE_TABLE.find? (fun e => e.1.data == toLowerStr part)).map
    (fun e => (e.2.1.data, e.2.2.data))

/-- Country lookup of the real environment, keyed by the lower-cased token. -/
def realCountryLookup (part : Str) : Option (Str × Str) :=
  (COUNTRY_TABLE.find? (fun e => e.1.data == toLowerStr part)).map
    (fun e => (e.2.1.data, e.2.2.data))

/-- The real lookup environment. -/
def realTables : GeoTables := ⟨realStateLookup, realCountryLookup⟩

/-- Delimiter class of `re.split` in `normalize_location`: comma,
semicolon, slash, hyphen. -/
def DELIMS (c : Char) : Bool := c == ',' || c == ';' || c == '/' || c == '-'

/-- Token list of `normalize_location`: split on delimiters, strip each
part, drop empties. -/
def splitParts (location : Str) : List Str :=
  ((splitPStr DELIMS location).map trimStr).filter (fun p => !p.isEmpty)

/-- The denylist of common city-name prefix words skipped by the country
lookup in `normalize_location`. -/
def CITY_PREFIX_DENYLIST : List String := ["san", "los", "new", "fort", "saint", "mount"]

/-- Assign a token as the city if no city has been found yet
(`if not result["city"]: result["city"] = part`). -/
def assignCity (result : NormLoc) (part : Str) : NormLoc :=
  if truthyO result.city then result else { result with city := some part }

/-- One iteration of the token loop of `normalize_location`: state lookup
first, then (for tokens without a space and outside the denylist) country
lookup, else city assignment. -/
def classifyPart (T : GeoTables) (result : NormLoc) (part : Str) : NormLoc :=
  match T.stateLookup part with
  | some (name, abbr) =>
    { result with state := some name, state_abbr := some abbr,
                  country := some "United States".data, country_code := some "USA".data }
  | none =>
    if !(part.any (fun c => c == ' ')) &&
        !(CITY_PREFIX_DENYLIST.any (fun w => w.data == toLowerStr part)) then
      match T.countryLookup part with
      | some (name, code) => { result with country := some name, country_code := some code }
      | none => assignCity result part
    else assignCity result part

/-- The all-empty descriptor returned for falsy input. -/
def emptyNorm : NormLoc := ⟨none, none, none, none, none, []⟩

/-- The final step of `normalize_location`: if a US state was found but no
country was set, mark the country as USA. -/
def normFixup (result : NormLoc) : NormLoc :=
  if truthyO result.state && !truthyO result.country then
    { result with country := some "United States".data, country_code := some "USA".data }
  else result

/-- The `normalize_location` function of `src/location_utils.py`: strip,
split into parts, classify each part in order, then the state-implies-USA
fixup. -/
def normalize_location (T : GeoTables) (location : Str) : NormLoc :=
  if location.isEmpty then emptyNorm
  else
    normFixup ((splitParts (trimStr location)).foldl (classifyPart T)
      ⟨none, none, none, none, none, trimStr location⟩)

/-- Word-splitting class of the token-overlap fallback in
`locations_match`: whitespace plus the delimiter class. -/
def WORD_DELIMS (c : Char) : Bool := c.isWhitespace || DELIMS c

/-- Words of length greater than one of a (lower-cased) location string. -/
def significantWords (s : Str) : List Str :=
  (splitPStr WORD_DELIMS s).filter (fun w => 1 < w.length)

/-- Nonempty intersection of the significant-word sets of the two
lower-cased originals (the final fallback of `locations_match`). -/
def wordsOverlap (l1 l2 : Str) : Bool :=
  (significantWords l1).any (fun w => (significantWords l2).any (fun v => v == w))

/-- The body of `locations_match` after the region-expansion block:
normalize both strings, then direct match, country rule, state rule,
state-vs-USA rules, city substring rule, token-overlap fallback. -/
def locations_match_noexp (T : GeoTables) (location1 location2 : Str) : Bool :=
  let norm1 := normalize_location T location1
  let norm2 := normalize_location T location2
  if toLowerStr norm1.original == toLowerStr norm2.original then true
  else if truthyO norm1.country && truthyO norm2.country then
    if toLowerStr (optStr norm1.country) == toLowerStr (optStr norm2.country) then
      if truthyO norm1.state && truthyO norm2.state then
        toLowerStr (optStr norm1.state) == toLowerStr (optStr norm2.state)
      else true
    else false
  else if truthyO norm1.state && truthyO norm2.state then
    toLowerStr (optStr norm1.state) == toLowerStr (optStr norm2.state)
  else if truthyO norm1.state && truthyO norm2.country &&
      isSubstr "united states".data (toLowerStr (optStr norm2.country)) then true
  else if truthyO norm2.state && truthyO norm1.country &&
      isSubstr "united states".data (toLowerStr (optStr norm1.country)) then true
  else if truthyO norm1.city && truthyO norm2.city &&
      (isSubstr (toLowerStr (optStr norm1.city)) (toLowerStr (optStr norm2.city)) ||
       isSubstr (toLowerStr (optStr norm2.city)) (toLowerStr (optStr norm1.city))) then true
  else wordsOverlap (toLowerStr norm1.original) (toLowerStr norm2.original)

/-- The `locations_match` function called with `_expanded=True`: the
emptiness guard followed directly by the normalized checks. -/
def locations_match_expanded (T : GeoTables) (location1 location2 : Str) : Bool :=
  if !truthyS location1 || !truthyS location2 then false
  else locations_match_noexp T location1 location2

/-- The `locations_match` function of `src/location_utils.py` with the
default `_expanded=False`: expand the first argument; if it expanded to
more than one city, any expanded city matching decides `true`, else fall
through to the normalized checks on the original pair. -/
def locations_match (T : GeoTables) (location1 location2 : Str) : Bool :=
  if !truthyS location1 || !truthyS location2 then false
  else
    let expanded_locations := expand_region location1
    if 1 < expanded_locations.length then
      (expanded_locations.any fun city => locations_match_expanded T city location2) ||
        locations_match_noexp T location1 location2
    else locations_match_noexp T location1 location2

/-- A candidate record as read by the location code: the structured
location fields, the phones and the id.  The Python record is a dict whose
fields may hold arbitrary JSON; the detector coerces every value it uses
to `str`, so the fields are modelled directly as (optional) strings. -/
structure Candidate where
  id : Option Str
  location : Option Str
  locations : List Str
  contact_location : Option Str
  phones : List Str
  contact_phone : Option Str
deriving DecidableEq

/-- Oracles for the three helper functions the multi-source detector calls:
`extract_location_from_resume` and `extract_phone_numbers` (regex based)
and `get_location_from_phone_number` (the `phonenumbers` geocoder).  The
detector treats all three as black boxes; the theorems quantify over them. -/
structure DetectEnv where
  extract_location_from_resume : Str → Option Str
  extract_phone_numbers : Str → List Str
  get_location_from_phone_number : Str → Option Str

/-- The phone loop at the end of the detector: first phone whose stripped
value geocodes to a truthy location wins. -/
def firstPhoneLocation (E : DetectEnv) : List Str → Option Str
  | [] => none
  | phone :: rest =>
    if truthyS phone && truthyS (trimStr phone) then
      match E.get_location_from_phone_number (trimStr phone) with
      | some loc => if truthyS loc then some loc else firstPhoneLocation E rest
      | none => firstPhoneLocation E rest
    else firstPhoneLocation E rest

/-- The `get_candidate_location_multi_source` function of
`src/location_utils.py`: structured field (with `locations` and
contact-location fallbacks), then resume extraction, then phone geocoding. -/
def get_candidate_location_multi_source (E : DetectEnv) (candidate : Candidate)
    (resume_text : Option Str) : Option Str :=
  let candidate_location : Option Str :=
    if truthyO candidate.location then candidate.location
    else
      match candidate.locations with
      | [] => none
      | l :: _ => some l
  let candidate_location : Option Str :=
    if truthyO candidate_location then candidate_location else candidate.contact_location
  if truthyO candidate_location && truthyS (trimStr (optStr candidate_location)) then
    some (trimStr (optStr candidate_location))
  else
    let fromResume : Option Str :=
      match resume_text with
      | some rt =>
        if truthyS rt then
          match E.extract_location_from_resume rt with
          | some rl => if truthyS rl then some rl else none
          | none => none
        else none
      | none => none
    match fromResume with
    | some rl => some rl
    | none =>
      let phone_numbers : List Str :=
        candidate.phones ++
        (match candidate.contact_phone with | some p => [p] | none => []) ++
        (match resume_text with
         | some rt => if truthyS rt then E.extract_phone_numbers rt else []
         | none => [])
      firstPhoneLocation E phone_numbers

/-- The `filter_candidates_by_location` function of
`src/location_utils.py`.  `resume_texts` models the optional id-to-resume
dict as a lookup function (`none` for a missing key or an absent dict).
The Python loop appends each candidate at most once (`break` after the
first matching filter term), which is exactly `List.filter` with an `any`
over the filter terms. -/
def filter_candidates_by_location (T : GeoTables) (E : DetectEnv)
    (candidates : List Candidate) (location_filter : Str)
    (resume_texts : Str → Option Str) : List Candidate :=
  if !truthyS (trimStr location_filter) then candidates
  else
    let location_filter := trimStr location_filter
    let location_filters :=
      ((splitPStr (fun c => c == '\n') location_filter).map trimStr).filter truthyS
    candidates.filter fun candidate =>
      let resume_text :=
        match candidate.id with
        | some cid => resume_texts cid
        | none => none
      match get_candidate_location_multi_source E candidate resume_text with
      | some candidate_location =>
        truthyS candidate_location &&
          location_filters.any (fun filter_loc => locations_match T filter_loc candidate_location)
      | none => false

/-- Outcome of the scoring-call chain of one request inside
`analyze_single_resume`: either the retried OpenAI call succeeded and its
JSON decoded (giving an optional numeric `overall_score` and the rest of
the payload, abstracted to the summary), or some step raised — retries
exhausted, a non-rate-limit error, or a JSON/score decoding failure. -/
inductive ScoringOutcome where
  | parsed (overall_score : Option ℚ) (summary : Option String)
  | failed
deriving DecidableEq

/-- The result dict of `analyze_single_resume` as read by the dispatcher:
`overall_score` (always present), `summary`, and the `error` flag (absent
keys read as falsy/`none`). -/
structure Analysis where
  overall_score : ℚ
  summary : Option String
  error : Bool
deriving DecidableEq

/-- The `analyze_single_resume` function of `src/resume_analyzer.py`,
reduced to its observable result: on success the score is coerced with
`float(result.get("overall_score") or 0)`; on any failure the degraded
dict `{"overall_score": 0, "summary": "Analysis error", "error": True}`
is returned instead of raising. -/
def analyze_single_resume : ScoringOutcome → Analysis
  | .parsed sc sm => ⟨sc.getD 0, sm, false⟩
  | .failed => ⟨0, some "Analysis error", true⟩

/-- Outcome of one worker of the batch dispatcher: `process_candidate`
returned normally (wrapping a `ScoringOutcome`), or `future.result()`
raised and the bare-except branch of the loop runs. -/
inductive WorkerOutcome where
  | scored (o : ScoringOutcome)
  | raised
deriving DecidableEq

/-- One element of `candidates_with_resumes`: the candidate payload
(opaque to the dispatcher) and the resume text. -/
structure ScoreItem (α : Type) where
  candidate : α
  resume_text : String
deriving DecidableEq

/-- One entry of the dispatcher result list:
`{"candidate": ..., "analysis": ...}`. -/
structure ResultEntry (α : Type) where
  candidate : α
  analysis : Analysis
deriving DecidableEq

/-- The entry appended for one completed future: the normal return value
of `process_candidate`, or the bare-except fallback
`{"candidate": ..., "analysis": {"overall_score": 0}}`. -/
def completed_result {α : Type} (x : ScoreItem α × WorkerOutcome) : ResultEntry α :=
  match x.2 with
  | .scored o => ⟨x.1.candidate, analyze_single_resume o⟩
  | .raised => ⟨x.1.candidate, ⟨0, none, false⟩⟩

/-- One iteration of the `as_completed` loop of `analyze_candidates_batch`:
append the result of the completed future and record the progress call
`progress_callback(len(results), total)` made right after the append. -/
def batchStep {α : Type} (total : Nat) (acc : List (ResultEntry α) × List (Nat × Nat))
    (x : ScoreItem α × WorkerOutcome) : List (ResultEntry α) × List (Nat × Nat) :=
  let results := acc.1 ++ [completed_result x]
  (results, acc.2 ++ [(results.length, total)])

/-- The `as_completed` accumulation loop of `analyze_candidates_batch`:
one result appended per completed future, with the progress-call log. -/
def batchLoop {α : Type} (total : Nat) (completed : List (ScoreItem α × WorkerOutcome)) :
    List (ResultEntry α) × List (Nat × Nat) :=
  completed.foldl (batchStep total) ([], [])

/-- The sort order of the final `results.sort(key=..., reverse=True)`:
descending by `overall_score` (Python list sort is stable, modelled by
insertion sort, which inserts earlier-completed entries before later ties). -/
def score_desc {α : Type} (a b : ResultEntry α) : Prop :=
  b.analysis.overall_score ≤ a.analysis.overall_score

instance {α : Type} : DecidableRel (score_desc (α := α)) :=
  fun a b => inferInstanceAs (Decidable (b.analysis.overall_score ≤ a.analysis.overall_score))

instance {α : Type} : IsTotal (ResultEntry α) score_desc :=
  ⟨fun a b => (le_total b.analysis.overall_score a.analysis.overall_score).imp id id⟩

instance {α : Type} : IsTrans (ResultEntry α) score_desc :=
  ⟨fun _ _ _ hab hbc => le_trans hbc hab⟩

/-- The `analyze_candidates_batch` function of `src/resume_analyzer.py`
with `require_hands_on_coding=False` (the setting of the claims; with the
pre-filter enabled candidates are dropped before scoring by design).
`items` is `candidates_with_resumes` in submission order; `completed` is
the same multiset of requests, paired with each worker's outcome, in the
order `as_completed` yields them — the theorems hypothesise
`completed.Perm items` where it matters. -/
def analyze_candidates_batch {α : Type} (items completed : List (ScoreItem α × WorkerOutcome)) :
    List (ResultEntry α) :=
  List.insertionSort score_desc (batchLoop items.length completed).1

/-- The sequence of `progress_callback(completed, total)` invocations made
while running the batch. -/
def batch_progress_calls {α : Type} (items completed : List (ScoreItem α × WorkerOutcome)) :
    List (Nat × Nat) :=
  (batchLoop items.length completed).2

/-- Top-level function names defined in `src/location_utils.py`. -/
def location_utils_defs : List String :=
  ["expand_region", "normalize_location", "locations_match", "extract_phone_numbers",
   "get_location_from_phone_number", "extract_location_from_resume",
   "get_candidate_location_multi_source", "filter_candidates_by_location",
   "filter_candidates_with_resumes_by_location"]

/-- The names `src/app.py` line 13 imports from `location_utils`. -/
def app_location_utils_imports : List String :=
  ["filter_candidates_with_resumes_by_location", "filter_candidates_by_location_fast"]

/-- Detector environment whose three oracles find nothing, used to
instantiate theorems at concrete inputs. -/
def trivialEnv : DetectEnv := ⟨fun _ => none, fun _ => [], fun _ => none⟩

/-- Agreement of two descriptors on everything the country and state rules
read: the state, the country, and the truthiness of the city (the city
text itself may differ in letter case). -/
def SCAgree (r1 r2 : NormLoc) : Prop :=
  r1.state = r2.state ∧ r1.country = r2.country ∧ truthyO r1.city = truthyO r2.city

/-- Unfolding of the batch accumulation loop from an arbitrary
accumulator: results in completion order, one progress call per result. -/
theorem batchLoop_go {α : Type} (total : Nat)
    (completed : List (ScoreItem α × WorkerOutcome)) :
    ∀ (rs : List (ResultEntry α)) (cs : List (Nat × Nat)),
    List.foldl (batchStep total) (rs, cs) completed =
      (rs ++ completed.map completed_result,
       cs ++ (List.range completed.length).map (fun k => (rs.length + k + 1, total))) := by
  induction completed with
  | nil => intro rs cs; simp
  | cons x xs ih =>
    intro rs cs
    rw [List.foldl_cons]
    show List.foldl (batchStep total)
        (rs ++ [completed_result x], cs ++ [((rs ++ [completed_result x]).length, total)]) xs = _
    rw [ih]
    refine congrArg₂ Prod.mk (by simp) ?_
    simp only [List.length_append, List.length_cons, List.length_nil,
      List.range_succ_eq_map, List.map_cons, List.map_map, List.append_assoc,
      List.cons_append, List.nil_append]
    refine congrArg₂ List.append rfl (congrArg₂ List.cons (by simp) ?_)
    refine congrArg₂ List.map (funext fun k => ?_) rfl
    simp [Function.comp]
    omega

/-- Closed form of the batch loop: the result list is the completion-order
results, and the progress log counts 1 to N with the fixed total. -/
theorem batchLoop_eq {α : Type} (total : Nat)
    (completed : List (ScoreItem α × WorkerOutcome)) :
    batchLoop total completed =
      (completed.map completed_result,
       (List.range completed.length).map (fun k => (k + 1, total))) := by
  unfold batchLoop
  rw [batchLoop_go]
  simp

/-- Stability kernel: inserting an entry into a list keeps the filter by
any fixed score unchanged, except that the entry's own score gains the
entry at the front. -/
theorem orderedInsert_filter_score {α : Type} (a : ResultEntry α) (q : ℚ)
    (l : List (ResultEntry α)) :
    (List.orderedInsert score_desc a l).filter (fun e => e.analysis.overall_score == q) =
      if a.analysis.overall_score = q then
        a :: l.filter (fun e => e.analysis.overall_score == q)
      else l.filter (fun e => e.analysis.overall_score == q) := by
  induction l with
  | nil =>
    by_cases h : a.analysis.overall_score = q <;>
      simp [List.orderedInsert, List.filter_cons, beq_iff_eq, h]
  | cons b t ih =>
    by_cases hab : score_desc a b
    · by_cases h : a.analysis.overall_score = q <;>
        simp [List.orderedInsert, hab, List.filter_cons, h]
    · have hbq : b.analysis.overall_score = q → a.analysis.overall_score ≠ q := by
        intro hb ha
        exact hab (le_of_eq (hb.trans ha.symm))
      by_cases h : a.analysis.overall_score = q
      · have hb : ¬ b.analysis.overall_score = q := fun hb => hbq hb h
        simp [List.orderedInsert, hab, List.filter_cons, h, hb, ih]
      · simp only [List.orderedInsert, if_neg hab, List.filter_cons]
        by_cases hb : b.analysis.overall_score = q <;> simp [hb, ih, h]

/-- Stability of the final sort: filtering the sorted output by any fixed
score yields the same sequence as filtering the completion-order input. -/
theorem insertionSort_filter_score {α : Type} (q : ℚ) (l : List (ResultEntry α)) :
    (List.insertionSort score_desc l).filter (fun e => e.analysis.overall_score == q) =
      l.filter (fun e => e.analysis.overall_score == q) := by
  induction l with
  | nil => rfl
  | cons a t ih =>
    simp only [List.insertionSort]
    rw [orderedInsert_filter_score]
    by_cases h : a.analysis.overall_score = q <;> simp [List.filter_cons, h, ih]

/-- The boolean substring test agrees with the infix relation. -/
theorem isSubstr_iff (a b : Str) : isSubstr a b = true ↔ a <:+: b := by
  induction b with
  | nil => simp [isSubstr, List.isEmpty_iff]
  | cons c bs ih =>
    simp [isSubstr, List.isPrefixOf_iff_prefix, ih, List.infix_cons_iff]

/-- Dropping a prefix of characters stops at the first character that
fails the predicate. -/
theorem dropWhile_append_cons (p : Char → Bool) (a : Char) (l : Str) (h : p a = false) :
    ∀ x : Str, List.dropWhile p (x ++ a :: l) = List.dropWhile p x ++ a :: l := by
  intro x
  induction x with
  | nil => simp [List.dropWhile_cons, h]
  | cons b x ih =>
    by_cases hb : p b
    · simp [List.dropWhile_cons, hb, ih]
    · simp [List.dropWhile_cons, hb]

/-- The stripped string is a contiguous substring of the original. -/
theorem trimStr_occursIn (s : Str) : trimStr s <:+: s := by
  have h1 : (s.dropWhile Char.isWhitespace) <:+ s := List.dropWhile_suffix _
  have h2 : ((s.dropWhile Char.isWhitespace).reverse.dropWhile Char.isWhitespace) <:+
      (s.dropWhile Char.isWhitespace).reverse := List.dropWhile_suffix _
  have h3 : trimStr s <+: (s.dropWhile Char.isWhitespace) := by
    unfold trimStr
    rw [← List.reverse_suffix]
    simpa using h2
  exact h3.isInfix.trans h1.isInfix

/-- A nonempty pattern with non-whitespace endpoints that occurs in a
string also occurs in the stripped string: the stripped margins are all
whitespace, so no occurrence can use them. -/
theorem occursIn_trimStr_of_occursIn (name s : Str) (hne : name ≠ [])
    (hh : ∀ c ∈ name.head?, c.isWhitespace = false)
    (hl : ∀ c ∈ name.reverse.head?, c.isWhitespace = false)
    (h : name <:+: s) : name <:+: trimStr s := by
  obtain ⟨x, y, rfl⟩ := h
  cases hn : name with
  | nil => exact absurd hn hne
  | cons c tl =>
    subst hn
    have hc : c.isWhitespace = false := hh c rfl
    cases hr : (c :: tl).reverse with
    | nil =>
      have : (c :: tl).reverse.length = 0 := by rw [hr]; rfl
      simp at this
    | cons d r =>
      have hd : d.isWhitespace = false := hl d (by rw [hr]; rfl)
      have e3 : r.reverse ++ [d] = c :: tl := by
        have : (c :: tl).reverse.reverse = (d :: r).reverse := by rw [hr]
        simpa [List.reverse_cons] using this.symm
      refine ⟨x.dropWhile Char.isWhitespace,
              (y.reverse.dropWhile Char.isWhitespace).reverse, ?_⟩
      unfold trimStr
      have e1 : x ++ (c :: tl) ++ y = x ++ c :: (tl ++ y) := by simp
      rw [e1, dropWhile_append_cons Char.isWhitespace c (tl ++ y) hc x]
      have e2 : (x.dropWhile Char.isWhitespace ++ c :: (tl ++ y)).reverse =
          y.reverse ++ d :: (r ++ (x.dropWhile Char.isWhitespace).reverse) := by
        calc (x.dropWhile Char.isWhitespace ++ c :: (tl ++ y)).reverse
            = ((x.dropWhile Char.isWhitespace ++ (c :: tl)) ++ y).reverse := by simp
          _ = y.reverse ++ ((c :: tl).reverse ++ (x.dropWhile Char.isWhitespace).reverse) := by
              simp [List.reverse_append]
          _ = y.reverse ++ d :: (r ++ (x.dropWhile Char.isWhitespace).reverse) := by
              rw [hr]; simp
      rw [e2, dropWhile_append_cons Char.isWhitespace d _ hd y.reverse]
      simp [List.reverse_append, ← e3]

/-- The first-match characterization of `List.find?`. -/
theorem find?_first {α : Type} (p : α → Bool) :
    ∀ (l : List α) (i : Nat) (x : α), l[i]? = some x → p x = true →
    (∀ j, j < i → ∀ y : α, l[j]? = some y → p y = false) →
    l.find? p = some x := by
  intro l
  induction l with
  | nil => intro i x h; simp at h
  | cons a t ih =>
    intro i x hget hp hmin
    cases i with
    | zero =>
      simp at hget
      subst hget
      simp [List.find?_cons, hp]
    | succ n =>
      have ha : p a = false := hmin 0 (Nat.succ_pos n) a (by simp)
      simp only [List.find?_cons, ha]
      exact ih n x (by simpa using hget) hp
        (fun j hj y hy => hmin (j + 1) (by omega) y (by simpa using hy))

/-- C9: `expand_region` lower-cases its input and returns the member-city
list of the first region definition whose name occurs as a substring of
the lowered input (so a term with extra words around a region name still
expands), and returns the one-element list holding the input unchanged
when no region name occurs.  The implementation additionally strips the
lowered input, which is observationally irrelevant: region names start and
end with non-whitespace characters, so occurrence in the lowered string
and in its stripped form coincide. -/
theorem expand_region_spec (s : Str) :
    ((∀ rc ∈ REGION_MAPPINGS, isSubstr rc.1.data (toLowerStr s) = false) →
      expand_region s = [s]) ∧
    ∀ (i : Nat) (rc : String × List String), REGION_MAPPINGS[i]? = some rc →
      isSubstr rc.1.data (toLowerStr s) = true →
      (∀ j, j < i → ∀ rc2 : String × List String, REGION_MAPPINGS[j]? = some rc2 →
        isSubstr rc2.1.data (toLowerStr s) = false) →
      expand_region s = rc.2.map String.data := by
  have hend : ∀ rc ∈ REGION_MAPPINGS, rc.1.data ≠ [] ∧
      (∀ c ∈ rc.1.data.head?, c.isWhitespace = false) ∧
      (∀ c ∈ rc.1.data.reverse.head?, c.isWhitespace = false) := by decide
  have htrim : ∀ rc ∈ REGION_MAPPINGS,
      isSubstr rc.1.data (trimStr (toLowerStr s)) = isSubstr rc.1.data (toLowerStr s) := by
    intro rc hrc
    obtain ⟨h1, h2, h3⟩ := hend rc hrc
    by_cases hsub : isSubstr rc.1.data (toLowerStr s) = true
    · rw [hsub]
      exact (isSubstr_iff _ _).mpr
        (occursIn_trimStr_of_occursIn _ _ h1 h2 h3 ((isSubstr_iff _ _).mp hsub))
    · rw [Bool.eq_false_iff.mpr hsub, Bool.eq_false_iff]
      intro habs
      exact hsub ((isSubstr_iff _ _).mpr
        (((isSubstr_iff _ _).mp habs).trans (trimStr_occursIn _)))
  constructor
  · intro hnone
    unfold expand_region
    rw [List.find?_eq_none.mpr]
    intro rc hrc
    rw [htrim rc hrc, hnone rc hrc]
    simp
  · intro i rc hget hsub hmin
    unfold expand_region
    rw [find?_first _ REGION_MAPPINGS i rc hget
      (by rw [htrim rc (List.getElem?_mem hget), hsub])
      (fun j hj rc2 hrc2 => by
        rw [htrim rc2 (List.getElem?_mem hrc2), hmin j hj rc2 hrc2])]

/-- Witness for C9: no region name occurs in the lowered input, so the
input comes back unchanged as a singleton. -/
theorem expand_region_spec_witness :
    expand_region "Paris".data = ["Paris".data] :=
  (expand_region_spec "Paris".data).1 (by decide)

/-- C1: the spec's Phase A fast pass requires `filter_candidates_by_location_fast`
to be defined and callable, and `src/app.py` line 13 does import it (and
line 576 calls it), but `src/location_utils.py` defines no such function:
the import raises `ImportError` before any analysis can run. -/
theorem app_fast_filter_import_missing :
    "filter_candidates_by_location_fast" ∈ app_location_utils_imports ∧
    "filter_candidates_by_location_fast" ∉ location_utils_defs := by decide

/-- C2: with the hands-on-coding pre-filter disabled, the batch dispatcher
returns exactly one result per submitted request — the output is a
permutation of the per-request expected entries, hence has length N — and
a request whose scoring calls all fail contributes the degraded entry with
`overall_score = 0` and `error = true` instead of raising. -/
theorem analyze_candidates_batch_total {α : Type}
    (items completed : List (ScoreItem α × WorkerOutcome)) (h : completed.Perm items) :
    (analyze_candidates_batch items completed).length = items.length ∧
    (analyze_candidates_batch items completed).Perm (items.map completed_result) ∧
    ∀ x ∈ items, x.2 = WorkerOutcome.scored ScoringOutcome.failed →
      (⟨x.1.candidate, ⟨0, some "Analysis error", true⟩⟩ : ResultEntry α) ∈
        analyze_candidates_batch items completed := by
  have hperm : (analyze_candidates_batch items completed).Perm (items.map completed_result) := by
    unfold analyze_candidates_batch
    rw [show (batchLoop items.length completed).1 = completed.map completed_result by
      rw [batchLoop_eq]]
    exact (List.perm_insertionSort _ _).trans (h.map _)
  refine ⟨by rw [hperm.length_eq, List.length_map], hperm, ?_⟩
  intro x hx hfail
  have hx2 : completed_result x = ⟨x.1.candidate, ⟨0, some "Analysis error", true⟩⟩ := by
    unfold completed_result
    rw [hfail]
    rfl
  exact hperm.mem_iff.mpr (hx2 ▸ List.mem_map_of_mem completed_result hx)

/-- Witness for C2 at a concrete two-request batch containing a failing
request, completed in reversed order. -/
theorem analyze_candidates_batch_total_witness :
    (⟨"b", ⟨0, some "Analysis error", true⟩⟩ : ResultEntry String) ∈
      analyze_candidates_batch
        [⟨⟨"a", "ra"⟩, .scored (.parsed (some 80) none)⟩, ⟨⟨"b", "rb"⟩, .scored .failed⟩]
        [⟨⟨"b", "rb"⟩, .scored .failed⟩, ⟨⟨"a", "ra"⟩, .scored (.parsed (some 80) none)⟩] :=
  (analyze_candidates_batch_total _ _ (by decide)).2.2
    ⟨⟨"b", "rb"⟩, .scored .failed⟩ (by decide) rfl

/-- C3 counterexample: two requests with equal scores, completed in the
order opposite to submission.  The output lists the tie in completion
order `["b", "a"]`, not submission order `["a", "b"]`, and the output of
the same submitted batch differs between the two completion orders — so
ties do not preserve submission order and the result is not independent of
completion order. -/
theorem batch_tie_order_cex :
    (analyze_candidates_batch
        [⟨⟨"a", "ra"⟩, .scored (.parsed (some 50) none)⟩,
         ⟨⟨"b", "rb"⟩, .scored (.parsed (some 50) none)⟩]
        [⟨⟨"b", "rb"⟩, .scored (.parsed (some 50) none)⟩,
         ⟨⟨"a", "ra"⟩, .scored (.parsed (some 50) none)⟩]).map (fun e => e.candidate) =
      ["b", "a"] ∧
    (analyze_candidates_batch
        [⟨⟨"a", "ra"⟩, .scored (.parsed (some 50) none)⟩,
         ⟨⟨"b", "rb"⟩, .scored (.parsed (some 50) none)⟩]
        [⟨⟨"a", "ra"⟩, .scored (.parsed (some 50) none)⟩,
         ⟨⟨"b", "rb"⟩, .scored (.parsed (some 50) none)⟩]).map (fun e => e.candidate) =
      ["a", "b"] ∧
    (analyze_candidates_batch
        [⟨⟨"a", "ra"⟩, .scored (.parsed (some 50) none)⟩,
         ⟨⟨"b", "rb"⟩, .scored (.parsed (some 50) none)⟩]
        [⟨⟨"b", "rb"⟩, .scored (.parsed (some 50) none)⟩,
         ⟨⟨"a", "ra"⟩, .scored (.parsed (some 50) none)⟩]).map
        (fun e => e.analysis.overall_score) = [50, 50] := by decide

/-- C3 amended: the final result list is sorted descending by
`overall_score`, and ties preserve the order in which the workers
completed the requests (the results are appended in completion order and
the sort is stable), not the original submission order. -/
theorem analyze_candidates_batch_sorted_stable {α : Type}
    (items completed : List (ScoreItem α × WorkerOutcome)) :
    List.Sorted score_desc (analyze_candidates_batch items completed) ∧
    ∀ q : ℚ,
      (analyze_candidates_batch items completed).filter
          (fun e => e.analysis.overall_score == q) =
        (completed.map completed_result).filter (fun e => e.analysis.overall_score == q) := by
  refine ⟨List.sorted_insertionSort _ _, fun q => ?_⟩
  unfold analyze_candidates_batch
  rw [show (batchLoop items.length completed).1 = completed.map completed_result by
    rw [batchLoop_eq]]
  exact insertionSort_filter_score q _

/-- C5 counterexample: a candidate whose structured location field is set
and non-empty (a single space) for which the detector consults the resume
oracle and returns its value, not the structured field. -/
theorem multi_source_blank_structured_cex :
    (⟨some "x".data, some " ".data, [], none, [], none⟩ : Candidate).location =
      some " ".data ∧
    " ".data ≠ ([] : Str) ∧
    get_candidate_location_multi_source
        ⟨fun _ => some "Berlin".data, fun _ => [], fun _ => none⟩
        ⟨some "x".data, some " ".data, [], none, [], none⟩
        (some "resume text".data) = some "Berlin".data := by decide

/-- C5 amended: for every candidate whose structured location field is set
and non-blank (non-empty after stripping), the detector returns the
stripped structured value, for every resume text, every phone list and
every choice of the three oracles — the resume and phone sources are never
consulted. -/
theorem multi_source_structured_priority (E : DetectEnv) (candidate : Candidate) (l : Str)
    (resume_text : Option Str) (h1 : candidate.location = some l)
    (h2 : trimStr l ≠ []) :
    get_candidate_location_multi_source E candidate resume_text = some (trimStr l) := by
  have hl : l ≠ [] := by
    intro he
    rw [he] at h2
    exact h2 rfl
  have hle : l.isEmpty = false := by
    cases l with
    | nil => exact absurd rfl hl
    | cons c cs => rfl
  have hte : (trimStr l).isEmpty = false := by
    cases ht : trimStr l with
    | nil => exact absurd ht h2
    | cons c cs => rfl
  unfold get_candidate_location_multi_source
  rw [h1]
  simp [truthyO, truthyS, hle, optStr, hte]

/-- Witness for C5 at a concrete candidate with a padded structured
location, a resume oracle that would return Berlin and a phone on file. -/
theorem multi_source_structured_priority_witness :
    get_candidate_location_multi_source
        ⟨fun _ => some "Berlin".data, fun _ => [], fun _ => some "Munich".data⟩
        ⟨some "x".data, some " San Francisco, CA ".data, [], none, ["4155550100".data], none⟩
        (some "resume".data) = some "San Francisco, CA".data :=
  (multi_source_structured_priority _ _ " San Francisco, CA ".data _ rfl (by decide)).trans
    (by decide)

/-- C6: the location filter is idempotent, for every lookup environment,
every oracle environment, every candidate list, every filter string and
every resume-text mapping. -/
theorem filter_candidates_by_location_idempotent (T : GeoTables) (E : DetectEnv)
    (candidates : List Candidate) (location_filter : Str)
    (resume_texts : Str → Option Str) :
    filter_candidates_by_location T E
        (filter_candidates_by_location T E candidates location_filter resume_texts)
        location_filter resume_texts =
      filter_candidates_by_location T E candidates location_filter resume_texts := by
  unfold filter_candidates_by_location
  by_cases h : truthyS (trimStr location_filter)
  · simp only [h, Bool.not_true, Bool.false_eq_true, if_false]
    rw [List.filter_filter]
    exact List.filter_congr fun c _ => by rw [Bool.and_self]
  · simp only [h, Bool.not_false, if_true]

/-- C7 counterexample: an input that contains the same candidate id twice;
both copies match the filter, so the id appears twice in the output. -/
theorem filter_candidates_by_location_dup_cex :
    (filter_candidates_by_location realTables trivialEnv
        [⟨some "a".data, some "Paris".data, [], none, [], none⟩,
         ⟨some "a".data, some "Paris".data, [], none, [], none⟩]
        "Paris".data (fun _ => none)).map Candidate.id =
      [some "a".data, some "a".data] := by decide

/-- C7 amended: for every input candidate list and filter spec, the filter
output only contains candidate ids present in the input; and provided the
input ids are pairwise distinct, no id appears twice in the output. -/
theorem filter_candidates_by_location_ids (T : GeoTables) (E : DetectEnv)
    (candidates : List Candidate) (location_filter : Str)
    (resume_texts : Str → Option Str) :
    (∀ c ∈ filter_candidates_by_location T E candidates location_filter resume_texts,
        c.id ∈ candidates.map Candidate.id) ∧
    ((candidates.map Candidate.id).Nodup →
      ((filter_candidates_by_location T E candidates location_filter resume_texts).map
        Candidate.id).Nodup) := by
  unfold filter_candidates_by_location
  by_cases hf : truthyS (trimStr location_filter)
  · simp only [hf, Bool.not_true, Bool.false_eq_true, if_false]
    refine ⟨fun c hc => List.mem_map_of_mem _ (List.mem_filter.mp hc).1, fun h => ?_⟩
    exact h.sublist ((List.filter_sublist _).map _)
  · simp only [hf, Bool.not_false, if_true]
    exact ⟨fun c hc => List.mem_map_of_mem _ hc, fun h => h⟩

/-- Witness for C7 at a concrete duplicate-free input. -/
theorem filter_candidates_by_location_ids_witness :
    ((filter_candidates_by_location realTables trivialEnv
        [⟨some "a".data, some "Paris".data, [], none, [], none⟩,
         ⟨some "b".data, some "Tokyo".data, [], none, [], none⟩]
        "Paris".data (fun _ => none)).map Candidate.id).Nodup :=
  (filter_candidates_by_location_ids realTables trivialEnv _ _ _).2 (by decide)

/-- C8: with a progress callback supplied, the dispatcher invokes it
exactly N times, once after each completed request, with first arguments
exactly 1, 2, ..., N (strictly increasing, ending at N) and second
argument always the total N. -/
theorem batch_progress_calls_spec {α : Type}
    (items completed : List (ScoreItem α × WorkerOutcome)) (h : completed.Perm items) :
    batch_progress_calls items completed =
      (List.range items.length).map (fun k => (k + 1, items.length)) ∧
    (batch_progress_calls items completed).length = items.length := by
  have hl : completed.length = items.length := h.length_eq
  unfold batch_progress_calls
  rw [show (batchLoop items.length completed).2 =
      (List.range completed.length).map (fun k => (k + 1, items.length)) by
    rw [batchLoop_eq]]
  rw [hl]
  simp

/-- Witness for C8 at a concrete two-request batch completed in reversed
order: the callback log is exactly [(1, 2), (2, 2)]. -/
theorem batch_progress_calls_spec_witness :
    batch_progress_calls
        [⟨⟨"a", "ra"⟩, .scored (.parsed (some 80) none)⟩, ⟨⟨"b", "rb"⟩, .scored .failed⟩]
        [⟨⟨"b", "rb"⟩, .scored .failed⟩, ⟨⟨"a", "ra"⟩, .scored (.parsed (some 80) none)⟩] =
      [(1, 2), (2, 2)] :=
  ((batch_progress_calls_spec (α := String) _ _ (by decide)).1).trans (by decide)

/-- C10: `locations_match` is not commutative — region expansion applies
only to the first argument.  The region name Bay Area matches its member
city Oakland, but not the other way around; accordingly
`filter_candidates_by_location` passes the filter term as the first
argument. -/
theorem locations_match_not_commutative :
    locations_match realTables "bay area".data "oakland".data = true ∧
    locations_match realTables "oakland".data "bay area".data = false := by decide

/-- C4 counterexample: both locations normalize to descriptors carrying
countries (France and Germany) that differ case-insensitively, yet
`locations_match` returns true: the first string contains the region name
Bay Area, and region expansion runs before — and bypasses — the country
veto. -/
theorem locations_match_country_veto_cex :
    truthyO (normalize_location realTables "bay area, France".data).country = true ∧
    truthyO (normalize_location realTables "San Francisco, Germany".data).country = true ∧
    toLowerStr (optStr (normalize_location realTables "bay area, France".data).country) ≠
      toLowerStr (optStr (normalize_location realTables "San Francisco, Germany".data).country) ∧
    locations_match realTables "bay area, France".data "San Francisco, Germany".data = true := by
  decide

/-- Lower-casing a character preserves whether it is whitespace. -/
theorem lowerChar_isWhitespace (c : Char) : (lowerChar c).isWhitespace = c.isWhitespace := by
  unfold lowerChar
  split <;> rfl

/-- Lower-casing a character preserves whether it is a delimiter. -/
theorem lowerChar_DELIMS (c : Char) : DELIMS (lowerChar c) = DELIMS c := by
  unfold lowerChar
  split <;> rfl

/-- Lower-casing a character preserves whether it is a word delimiter. -/
theorem lowerChar_WORD_DELIMS (c : Char) : WORD_DELIMS (lowerChar c) = WORD_DELIMS c := by
  unfold WORD_DELIMS
  rw [lowerChar_isWhitespace, lowerChar_DELIMS]

/-- Lower-casing a character preserves whether it is a space. -/
theorem lowerChar_space (c : Char) : (lowerChar c == ' ') = (c == ' ') := by
  unfold lowerChar
  split <;> rfl

/-- Lower-casing a string preserves emptiness. -/
theorem toLowerStr_isEmpty (s : Str) : (toLowerStr s).isEmpty = s.isEmpty := by
  cases s <;> rfl

/-- Mapping a character function that preserves the predicate commutes
with dropWhile. -/
theorem dropWhile_map_invariant (f : Char → Char) (p : Char → Bool)
    (hp : ∀ c, p (f c) = p c) (s : Str) :
    List.dropWhile p (s.map f) = (List.dropWhile p s).map f := by
  induction s with
  | nil => rfl
  | cons c cs ih =>
    by_cases hc : p c
    · simp [List.dropWhile_cons, hp, hc, ih]
    · simp [List.dropWhile_cons, hp, hc]

/-- Lower-casing commutes with stripping. -/
theorem trimStr_toLowerStr (s : Str) : trimStr (toLowerStr s) = toLowerStr (trimStr s) := by
  unfold trimStr toLowerStr
  rw [dropWhile_map_invariant lowerChar Char.isWhitespace lowerChar_isWhitespace s,
    ← List.map_reverse,
    dropWhile_map_invariant lowerChar Char.isWhitespace lowerChar_isWhitespace,
    ← List.map_reverse]

/-- Lower-casing commutes with splitting on a case-invariant delimiter
class. -/
theorem splitPStr_toLowerStr (p : Char → Bool) (hp : ∀ c, p (lowerChar c) = p c) (s : Str) :
    splitPStr p (toLowerStr s) = (splitPStr p s).map toLowerStr := by
  induction s with
  | nil => rfl
  | cons c cs ih =>
    show splitPStr p (lowerChar c :: toLowerStr cs) = _
    have ih2 : splitPStr p (List.map lowerChar cs) = List.map toLowerStr (splitPStr p cs) := ih
    by_cases hc : p c
    · simp [splitPStr, hp, hc, ih2, toLowerStr]
    · simp only [splitPStr, hp c, hc, Bool.false_eq_true, if_false, ih]
      cases hsp : splitPStr p cs with
      | nil => simp [toLowerStr]
      | cons h t => simp [toLowerStr]

/-- The space test of the country-lookup guard only depends on the
lower-cased token. -/
theorem any_space_toLowerStr (s : Str) :
    (toLowerStr s).any (fun c => c == ' ') = s.any (fun c => c == ' ') := by
  unfold toLowerStr
  rw [List.any_map]
  exact congrArg s.any (funext fun c => lowerChar_space c)

/-- Two strings that agree after lower-casing produce token lists that
agree after lower-casing. -/
theorem splitParts_toLowerStr_eq (t1 t2 : Str) (h : toLowerStr t1 = toLowerStr t2) :
    (splitParts t1).map toLowerStr = (splitParts t2).map toLowerStr := by
  have filter_lower : ∀ l : List Str,
      (l.filter (fun p => !p.isEmpty)).map toLowerStr =
        (l.map toLowerStr).filter (fun p => !p.isEmpty) := by
    intro l
    rw [List.filter_map]
    refine congrArg (List.map toLowerStr) (List.filter_congr fun x _ => ?_).symm
    show (!(toLowerStr x).isEmpty) = !x.isEmpty
    rw [toLowerStr_isEmpty]
  have hcomp : toLowerStr ∘ trimStr = trimStr ∘ toLowerStr := by
    funext x
    exact (trimStr_toLowerStr x).symm
  have key : ∀ t : Str, (splitParts t).map toLowerStr =
      ((splitPStr DELIMS (toLowerStr t)).map trimStr).filter (fun p => !p.isEmpty) := by
    intro t
    unfold splitParts
    rw [filter_lower, List.map_map, hcomp, ← List.map_map,
      ← splitPStr_toLowerStr DELIMS lowerChar_DELIMS]
  rw [key t1, key t2, h]

/-- City assignment preserves descriptor agreement. -/
theorem assignCity_SCAgree (r1 r2 : NormLoc) (p1 p2 : Str) (hr : SCAgree r1 r2)
    (hp : toLowerStr p1 = toLowerStr p2) :
    SCAgree (assignCity r1 p1) (assignCity r2 p2) := by
  obtain ⟨hs, hc, hcity⟩ := hr
  have hpe : p1.isEmpty = p2.isEmpty := by
    rw [← toLowerStr_isEmpty p1, ← toLowerStr_isEmpty p2, hp]
  unfold assignCity
  rw [hcity]
  by_cases h : truthyO r2.city
  · rw [if_pos h, if_pos h]
    exact ⟨hs, hc, hcity⟩
  · rw [if_neg h, if_neg h]
    exact ⟨hs, hc, by simp [truthyO, hpe]⟩

/-- One step of the token loop preserves descriptor agreement when the
tokens agree after lower-casing (the real lookup tables are keyed by the
lower-cased token). -/
theorem classifyPart_SCAgree (r1 r2 : NormLoc) (p1 p2 : Str) (hr : SCAgree r1 r2)
    (hp : toLowerStr p1 = toLowerStr p2) :
    SCAgree (classifyPart realTables r1 p1) (classifyPart realTables r2 p2) := by
  have hstate : realStateLookup p1 = realStateLookup p2 := by
    unfold realStateLookup
    rw [hp]
  have hcountry : realCountryLookup p1 = realCountryLookup p2 := by
    unfold realCountryLookup
    rw [hp]
  have hguard : (!(p1.any (fun c => c == ' ')) &&
        !(CITY_PREFIX_DENYLIST.any (fun w => w.data == toLowerStr p1))) =
      (!(p2.any (fun c => c == ' ')) &&
        !(CITY_PREFIX_DENYLIST.any (fun w => w.data == toLowerStr p2))) := by
    rw [← any_space_toLowerStr p1, ← any_space_toLowerStr p2, hp]
  show SCAgree
    (match realTables.stateLookup p1 with
     | some (name, abbr) =>
       { r1 with state := some name, state_abbr := some abbr,
                 country := some "United States".data, country_code := some "USA".data }
     | none => _) _
  show SCAgree _
    (match realTables.stateLookup p2 with
     | some (name, abbr) =>
       { r2 with state := some name, state_abbr := some abbr,
                 country := some "United States".data, country_code := some "USA".data }
     | none => _)
  have hT1 : realTables.stateLookup p1 = realStateLookup p1 := rfl
  have hT2 : realTables.stateLookup p2 = realStateLookup p2 := rfl
  rw [hT1, hT2, hstate]
  cases hsl : realStateLookup p2 with
  | some pair =>
    exact ⟨rfl, rfl, hr.2.2⟩
  | none =>
    show SCAgree
      (if !(p1.any (fun c => c == ' ')) &&
          !(CITY_PREFIX_DENYLIST.any (fun w => w.data == toLowerStr p1)) then
        match realTables.countryLookup p1 with
        | some (name, code) =>
          { r1 with country := some name, country_code := some code }
        | none => assignCity r1 p1
      else assignCity r1 p1) _
    show SCAgree _
      (if !(p2.any (fun c => c == ' ')) &&
          !(CITY_PREFIX_DENYLIST.any (fun w => w.data == toLowerStr p2)) then
        match realTables.countryLookup p2 with
        | some (name, code) =>
          { r2 with country := some name, country_code := some code }
        | none => assignCity r2 p2
      else assignCity r2 p2)
    rw [hguard]
    by_cases hg : (!(p2.any (fun c => c == ' ')) &&
        !(CITY_PREFIX_DENYLIST.any (fun w => w.data == toLowerStr p2))) = true
    · rw [if_pos hg, if_pos hg]
      have hC1 : realTables.countryLookup p1 = realCountryLookup p1 := rfl
      have hC2 : realTables.countryLookup p2 = realCountryLookup p2 := rfl
      rw [hC1, hC2, hcountry]
      cases hcl : realCountryLookup p2 with
      | some pair => exact ⟨hr.1, rfl, hr.2.2⟩
      | none => exact assignCity_SCAgree r1 r2 p1 p2 hr hp
    · rw [if_neg hg, if_neg hg]
      exact assignCity_SCAgree r1 r2 p1 p2 hr hp

/-- The token loop preserves descriptor agreement for token lists that
agree after lower-casing. -/
theorem foldl_classify_SCAgree :
    ∀ (ps1 ps2 : List Str) (r1 r2 : NormLoc),
      ps1.map toLowerStr = ps2.map toLowerStr → SCAgree r1 r2 →
      SCAgree (ps1.foldl (classifyPart realTables) r1) (ps2.foldl (classifyPart realTables) r2) := by
  intro ps1
  induction ps1 with
  | nil =>
    intro ps2 r1 r2 h hr
    cases ps2 with
    | nil => exact hr
    | cons q qs => simp at h
  | cons p ps ih =>
    intro ps2 r1 r2 h hr
    cases ps2 with
    | nil => simp at h
    | cons q qs =>
      simp only [List.map_cons, List.cons.injEq] at h
      exact ih qs _ _ h.2 (classifyPart_SCAgree r1 r2 p q hr h.1)

/-- The state-implies-USA fixup preserves descriptor agreement. -/
theorem normFixup_SCAgree (r1 r2 : NormLoc) (hr : SCAgree r1 r2) :
    SCAgree (normFixup r1) (normFixup r2) := by
  obtain ⟨hs, hc, hcity⟩ := hr
  unfold normFixup
  rw [hs, hc]
  split
  · exact ⟨by simp [hs], by simp, by simpa using hcity⟩
  · exact ⟨hs, hc, hcity⟩

/-- Normalization is invariant under letter case: two strings that agree
case-insensitively after stripping normalize to descriptors agreeing on
state, country, and city truthiness. -/
theorem normalize_SCAgree (l1 l2 : Str)
    (h : toLowerStr (trimStr l1) = toLowerStr (trimStr l2)) :
    SCAgree (normalize_location realTables l1) (normalize_location realTables l2) := by
  have hmain : ∀ la lb : Str, toLowerStr (trimStr la) = toLowerStr (trimStr lb) →
      SCAgree
        (normFixup ((splitParts (trimStr la)).foldl (classifyPart realTables)
          ⟨none, none, none, none, none, trimStr la⟩))
        (normFixup ((splitParts (trimStr lb)).foldl (classifyPart realTables)
          ⟨none, none, none, none, none, trimStr lb⟩)) := by
    intro la lb hab
    exact normFixup_SCAgree _ _
      (foldl_classify_SCAgree _ _ _ _ (splitParts_toLowerStr_eq _ _ hab) ⟨rfl, rfl, rfl⟩)
  have hnil : ∀ l : Str, trimStr l = [] →
      SCAgree emptyNorm (normalize_location realTables l) := by
    intro l hl
    unfold normalize_location
    split
    · exact ⟨rfl, rfl, rfl⟩
    · rw [hl]
      exact ⟨rfl, rfl, rfl⟩
  have hlow_nil : ∀ l : Str, toLowerStr (trimStr l) = [] → trimStr l = [] := by
    intro l hl
    cases ht : trimStr l with
    | nil => rfl
    | cons c cs =>
      rw [ht] at hl
      simp [toLowerStr] at hl
  by_cases h1 : l1.isEmpty <;> by_cases h2 : l2.isEmpty
  · have e1 : l1 = [] := by cases l1 with | nil => rfl | cons c cs => simp at h1
    have e2 : l2 = [] := by cases l2 with | nil => rfl | cons c cs => simp at h2
    subst e1; subst e2
    exact ⟨rfl, rfl, rfl⟩
  · have e1 : l1 = [] := by cases l1 with | nil => rfl | cons c cs => simp at h1
    subst e1
    have ht2 : trimStr l2 = [] := hlow_nil l2 (by rw [← h]; rfl)
    have : normalize_location realTables [] = emptyNorm := rfl
    rw [this]
    exact hnil l2 ht2
  · have e2 : l2 = [] := by cases l2 with | nil => rfl | cons c cs => simp at h2
    subst e2
    have ht1 : trimStr l1 = [] := hlow_nil l1 (by rw [h]; rfl)
    have : normalize_location realTables [] = emptyNorm := rfl
    rw [this]
    obtain ⟨a, b, c⟩ := hnil l1 ht1
    exact ⟨a.symm, b.symm, c.symm⟩
  · unfold normalize_location
    rw [if_neg (by simp [h1]), if_neg (by simp [h2])]
    exact hmain l1 l2 h


/-- Classifying a token never changes the stored original string. -/
theorem classifyPart_original (T : GeoTables) (r : NormLoc) (p : Str) :
    (classifyPart T r p).original = r.original := by
  unfold classifyPart assignCity
  repeat' split
  all_goals rfl

/-- The token loop never changes the stored original string. -/
theorem foldl_classify_original (T : GeoTables) :
    ∀ (ps : List Str) (r : NormLoc), (ps.foldl (classifyPart T) r).original = r.original := by
  intro ps
  induction ps with
  | nil => intro r; rfl
  | cons p ps ih =>
    intro r
    rw [List.foldl_cons, ih, classifyPart_original]

/-- The state-implies-USA fixup never changes the stored original string. -/
theorem normFixup_original (r : NormLoc) : (normFixup r).original = r.original := by
  unfold normFixup
  split <;> rfl

/-- The descriptor stores the stripped input as its original. -/
theorem normalize_original (T : GeoTables) (l : Str) :
    (normalize_location T l).original = trimStr l := by
  unfold normalize_location
  split
  · rename_i h
    have : l = [] := by
      cases l with
      | nil => rfl
      | cons c cs => simp at h
    subst this
    rfl
  · rw [normFixup_original, foldl_classify_original]

/-- When the first argument does not expand to a region, `locations_match`
is the normalized check on the original pair. -/
theorem locations_match_eq_noexp (T : GeoTables) (l1 l2 : Str)
    (hex : (expand_region l1).length ≤ 1)
    (h1 : truthyS l1 = true) (h2 : truthyS l2 = true) :
    locations_match T l1 l2 = locations_match_noexp T l1 l2 := by
  unfold locations_match
  rw [h1, h2]
  simp only [Bool.not_true, Bool.or_self, Bool.false_eq_true, if_false]
  rw [if_neg (by omega)]

/-- C4 amended: for location strings in which no region name occurs (so no
region expansion applies) and whose descriptors both carry a country — if
the countries are equal case-insensitively, matching succeeds unless both
descriptors also carry a state and the states differ (in which case the
result is exactly the state comparison); if the countries differ,
`locations_match` returns false and no later rule runs.  As the
counterexample shows, the no-expansion restriction is necessary: a first
argument containing a region name bypasses the country veto. -/
theorem locations_match_country_rule (l1 l2 : Str)
    (hex : (expand_region l1).length ≤ 1)
    (hc1 : truthyO (normalize_location realTables l1).country = true)
    (hc2 : truthyO (normalize_location realTables l2).country = true) :
    (toLowerStr (optStr (normalize_location realTables l1).country) =
        toLowerStr (optStr (normalize_location realTables l2).country) →
      (¬(truthyO (normalize_location realTables l1).state = true ∧
          truthyO (normalize_location realTables l2).state = true) →
        locations_match realTables l1 l2 = true) ∧
      (truthyO (normalize_location realTables l1).state = true →
        truthyO (normalize_location realTables l2).state = true →
        locations_match realTables l1 l2 =
          (toLowerStr (optStr (normalize_location realTables l1).state) ==
            toLowerStr (optStr (normalize_location realTables l2).state)))) ∧
    (toLowerStr (optStr (normalize_location realTables l1).country) ≠
        toLowerStr (optStr (normalize_location realTables l2).country) →
      locations_match realTables l1 l2 = false) := by
  have ht1 : truthyS l1 = true := by
    cases l1 with
    | nil => exact absurd hc1 (by decide)
    | cons c cs => rfl
  have ht2 : truthyS l2 = true := by
    cases l2 with
    | nil => exact absurd hc2 (by decide)
    | cons c cs => rfl
  rw [locations_match_eq_noexp realTables l1 l2 hex ht1 ht2]
  simp only [locations_match_noexp]
  rw [normalize_original realTables l1, normalize_original realTables l2]
  by_cases hdm : toLowerStr (trimStr l1) = toLowerStr (trimStr l2)
  · obtain ⟨hsEq, hcEq, _⟩ := normalize_SCAgree l1 l2 hdm
    have hbeq : (toLowerStr (trimStr l1) == toLowerStr (trimStr l2)) = true := by
      rw [hdm]
      exact beq_self_eq_true _
    refine ⟨fun hceq => ⟨fun _ => ?_, fun hs1 hs2 => ?_⟩, fun hcne => ?_⟩
    · simp [hbeq]
    · simp [hbeq, hsEq]
    · exact absurd (by rw [hcEq]) hcne
  · have hbeq : (toLowerStr (trimStr l1) == toLowerStr (trimStr l2)) = false :=
      beq_eq_false_iff_ne.mpr hdm
    refine ⟨fun hceq => ⟨fun hns => ?_, fun hs1 hs2 => ?_⟩, fun hcne => ?_⟩
    · have hnboth : (truthyO (normalize_location realTables l1).state &&
          truthyO (normalize_location realTables l2).state) = false := by
        cases hA : truthyO (normalize_location realTables l1).state <;>
          cases hB : truthyO (normalize_location realTables l2).state <;> simp_all
      simp [hbeq, hc1, hc2, hceq, hnboth]
    · simp [hbeq, hc1, hc2, hceq, hs1, hs2]
    · have hne : (toLowerStr (optStr (normalize_location realTables l1).country) ==
          toLowerStr (optStr (normalize_location realTables l2).country)) = false :=
        beq_eq_false_iff_ne.mpr hcne
      simp [hbeq, hc1, hc2, hne]

/-- Witness for C4 at a concrete country-mismatch pair: Toronto, Canada
against France is vetoed. -/
theorem locations_match_country_rule_witness :
    locations_match realTables "Toronto, Canada".data "France".data = false :=
  (locations_match_country_rule "Toronto, Canada".data "France".data
    (by decide) (by decide) (by decide)).2 (by decide)
